import Mathlib

/-!
Verification of the geometry-extraction layer of GenerateFigureFromFile.

The Python sources (src/parsing.py, src/main.py) are shallowly embedded here.
A file's contents are represented the way Python's readlines() hands them to
the parsers: a list of lines, each line keeping its trailing newline character
when the file has one there.  Python exceptions are modelled by the Except
monad: PyErr.indexError stands for IndexError (the spec calls the chunk-count
variant UnrecognizedArchiveFormatError) and PyErr.valueError stands for
ValueError from float().  Machine floats are modelled by exact rationals, so
that a decimal literal denotes its exact numeric value.
-/

namespace GenFig

/-- Characters Python's str.strip and float() treat as whitespace. -/
def isWsChar (c : Char) : Bool :=
  c = ' ' || c = '\t' || c = '\n' || c = '\r' || c = '\x0b' || c = '\x0c'

/-- Python str.strip on a character list: drop whitespace at both ends. -/
def stripList (l : List Char) : List Char :=
  ((l.dropWhile isWsChar).reverse.dropWhile isWsChar).reverse

/-- Python str.strip. -/
def pyStrip (s : String) : String := ⟨stripList s.data⟩

/-- Python slice s[a:b] with 0 ≤ a ≤ b: clamps to the string length. -/
def pySlice (s : String) (a b : Nat) : String := ⟨(s.data.drop a).take (b - a)⟩

/-- Python str.ljust with the default space fill. -/
def pyLjust (s : String) (n : Nat) : String :=
  ⟨s.data ++ List.replicate (n - s.data.length) ' '⟩

/-- Python str.rjust with the default space fill. -/
def pyRjust (s : String) (n : Nat) : String :=
  ⟨List.replicate (n - s.data.length) ' ' ++ s.data⟩

/-- Boolean test that the first list is a leading segment of the second. -/
def leadMatch : List Char → List Char → Bool
  | [], _ => true
  | _ :: _, [] => false
  | a :: as, b :: bs => (a == b) && leadMatch as bs

/-- Core of Python str.split(sep) for a separator with first character s0 and
remaining characters srest.  cur is the current token (reversed); skip counts
separator characters still to be discarded after a separator was recognised. -/
def splitAux (s0 : Char) (srest : List Char) : List Char → Nat → List Char → List (List Char)
  | cur, _, [] => [cur.reverse]
  | cur, skip + 1, _ :: rest => splitAux s0 srest cur skip rest
  | cur, 0, c :: rest =>
    if (c == s0) && leadMatch srest rest then
      cur.reverse :: splitAux s0 srest [] srest.length rest
    else
      splitAux s0 srest (c :: cur) 0 rest

/-- Python str.split(sep) for a non-empty separator (Python raises on an empty
separator; the program only ever splits on backslash, double backslash and
comma).  Scans left to right, taking non-overlapping occurrences. -/
def pySplit (s sep : String) : List String :=
  match sep.data with
  | [] => [s]
  | s0 :: srest => (splitAux s0 srest [] 0 s.data).map (fun l => (⟨l⟩ : String))

/-- Numeric value of a digit run, as an exact rational. -/
def digitsVal (l : List Char) : ℚ :=
  l.foldl (fun a c => 10 * a + ((c.toNat - 48 : ℕ) : ℚ)) 0

/-- Numeric value of a digit run, as a natural number (used for exponents). -/
def digitsNat (l : List Char) : ℕ :=
  l.foldl (fun a c => 10 * a + (c.toNat - 48)) 0

/-- Exponent digits: the rest of the input must be a non-empty digit run;
the mantissa is then scaled by the corresponding power of ten. -/
def parseExpDigits (m : ℚ) (neg : Bool) (t : List Char) : Option ℚ :=
  let ds := t.takeWhile Char.isDigit
  if (t.drop ds.length).isEmpty && !ds.isEmpty then
    some (if neg then m / 10 ^ digitsNat ds else m * 10 ^ digitsNat ds)
  else none

/-- Optional exponent part of a Python float literal: either nothing remains,
or an e or E followed by an optional sign and a non-empty digit run that
consumes the rest of the input. -/
def parseExpPart (m : ℚ) (l : List Char) : Option ℚ :=
  match l with
  | [] => some m
  | e :: r =>
    if e = 'e' || e = 'E' then
      match r with
      | '+' :: t => parseExpDigits m false t
      | '-' :: t => parseExpDigits m true t
      | t => parseExpDigits m false t
    else none

/-- Unsigned part of a Python float literal: digits, digits.digits, digits.,
or .digits, followed by an optional exponent. -/
def parseDecCore (l : List Char) : Option ℚ :=
  let ip := l.takeWhile Char.isDigit
  let r1 := l.drop ip.length
  match r1 with
  | '.' :: r2 =>
    let fp := r2.takeWhile Char.isDigit
    let r3 := r2.drop fp.length
    if ip.isEmpty && fp.isEmpty then none
    else parseExpPart (digitsVal ip + digitsVal fp / 10 ^ fp.length) r3
  | _ => if ip.isEmpty then none else parseExpPart (digitsVal ip) r1

/-- Model of Python float(s) on finite decimal literals: surrounding
whitespace is stripped, then an optional sign and a decimal literal with
optional exponent must consume the whole string; anything else raises
ValueError, modelled as none.  The inf and nan spellings and digit-group
underscores accepted by Python never arise from the slices taken by this
program and are not modelled.  The value is the exact rational denoted by
the literal. -/
def pyFloat (s : String) : Option ℚ :=
  match stripList s.data with
  | '+' :: r => parseDecCore r
  | '-' :: r => (parseDecCore r).map (fun q => -q)
  | l => parseDecCore l

/-- Result of parsing one atom: element symbol and exact coordinates. -/
structure Atom where
  symbol : String
  x : ℚ
  y : ℚ
  z : ℚ
deriving DecidableEq, Repr

/-- Python exceptions the parsers can raise. -/
inductive PyErr
  | indexError
  | valueError
deriving DecidableEq, Repr

instance {ε α : Type} [DecidableEq ε] [DecidableEq α] : DecidableEq (Except ε α) := fun x y =>
  match x, y with
  | .ok a, .ok b =>
    match decEq a b with
    | .isTrue h => .isTrue (h ▸ rfl)
    | .isFalse h => .isFalse (fun hc => h (Except.ok.inj hc))
  | .error a, .error b =>
    match decEq a b with
    | .isTrue h => .isTrue (h ▸ rfl)
    | .isFalse h => .isFalse (fun hc => h (Except.error.inj hc))
  | .ok _, .error _ => .isFalse (fun hc => Except.noConfusion hc)
  | .error _, .ok _ => .isFalse (fun hc => Except.noConfusion hc)

/-- Fixed-column extraction shared verbatim by parse_geom_from_xyz (lines
196 to 201) and parse_geom_from_com (lines 244 to 249): symbol from slice
[0,2) stripped, x from float of slice [2,17), y from slice [18,32), z from
slice [33,47).  A float failure raises ValueError. -/
def sliceAtom (line : String) : Except PyErr Atom :=
  match pyFloat (pySlice line 2 17) with
  | none => .error .valueError
  | some x =>
    match pyFloat (pySlice line 18 32) with
    | none => .error .valueError
    | some y =>
      match pyFloat (pySlice line 33 47) with
      | none => .error .valueError
      | some z => .ok ⟨pyStrip (pySlice line 0 2), x, y, z⟩

/-- The Python for-loop that applies sliceAtom to each element and appends,
aborting the whole loop on the first uncaught exception. -/
def parseLines : List String → Except PyErr (List Atom)
  | [] => .ok []
  | l :: rest =>
    match sliceAtom l with
    | .error e => .error e
    | .ok a =>
      match parseLines rest with
      | .error e => .error e
      | .ok as => .ok (a :: as)

/-- parse_geom_from_xyz (src/parsing.py lines 176 to 203): drop the first two
lines, then run the fixed-column extraction over every remaining line. -/
def parse_geom_from_xyz (lines : List String) : Except PyErr (List Atom) :=
  parseLines (lines.drop 2)

/-- ASCII letter, as matched by the regex class [A-Za-z]. -/
def isAlphaAZ (c : Char) : Bool :=
  ('A' ≤ c && c ≤ 'Z') || ('a' ≤ c && c ≤ 'z')

/-- Character of the regex class [-.\d ] (the coordinates run).  The inputs
here are ASCII, where Python \d is exactly the digits 0 to 9. -/
def classChar (c : Char) : Bool :=
  c.isDigit || c = '.' || c = '-' || c = ' '

/-- Attempt to match the tail pattern of one or more spaces followed by one
or more class characters against a leading segment of r, with Python regex
greedy-plus-backtracking semantics: the space run is taken greedily; if the
class then has no character to take, the space run gives one space back to
the class (possible only when at least two spaces were taken).  Returns the
matched segment and the remaining input. -/
def tailMatch (r : List Char) : Option (List Char × List Char) :=
  let sp := r.takeWhile (fun c => c = ' ')
  let k := sp.length
  let r2 := r.drop k
  if k = 0 then none
  else
    match r2 with
    | [] => if 2 ≤ k then some (sp, []) else none
    | d :: _ =>
      if classChar d then
        some (sp ++ r2.takeWhile classChar, r2.drop (r2.takeWhile classChar).length)
      else if 2 ≤ k then some (sp, r2)
      else none

/-- Attempt to match the whole pattern of one or two letters, spaces, then
the class run, starting exactly at the character c (with rest following).
Two letters are preferred; on failure of the tail the match backtracks to a
single letter, whose tail then starts at the second letter. -/
def matchAt (c : Char) (rest : List Char) : Option (List Char × List Char) :=
  if isAlphaAZ c then
    match rest with
    | [] => none
    | c2 :: r =>
      if isAlphaAZ c2 then
        match tailMatch r with
        | some (m, rem) => some (c :: c2 :: m, rem)
        | none =>
          match tailMatch rest with
          | some (m, rem) => some (c :: m, rem)
          | none => none
      else
        match tailMatch rest with
        | some (m, rem) => some (c :: m, rem)
        | none => none
  else none

/-- The scan of re.findall: try a match at each position, continuing after a
match or advancing one character on failure.  Every step consumes at least one
character, so fuel equal to the input length makes the recursion structural
without cutting the scan short. -/
def findallF : Nat → List Char → List (List Char)
  | 0, _ => []
  | _, [] => []
  | fuel + 1, c :: rest =>
    match matchAt c rest with
    | some (m, rem) => m :: findallF fuel rem
    | none => findallF fuel rest

/-- The candidate atom substrings re.findall extracts from the joined text
blob in parse_geom_from_com (src/parsing.py lines 240 to 241). -/
def comMatches (lines : List String) : List String :=
  (findallF (String.intercalate "\n" lines).data.length
      (String.intercalate "\n" lines).data).map (fun l => (⟨l⟩ : String))

/-- parse_geom_from_com (src/parsing.py lines 206 to 251): find the candidate
matches, then run the fixed-column extraction over every match in order. -/
def parse_geom_from_com (lines : List String) : Except PyErr (List Atom) :=
  parseLines (comMatches lines)

/-- The concatenation step of parse_geom_from_log (lines 143 to 148): keep
only lines containing a backslash, and join them with every newline and space
character removed. -/
def joinBackslashLines (lines : List String) : String :=
  ⟨(lines.filter (fun l => l.data.any (fun c => c = '\\'))).foldl
      (fun acc l => acc ++ l.data.filter (fun c => !(c = '\n' || c = ' '))) []⟩

/-- The chunk split of parse_geom_from_log line 151: the concatenated archive
text split on the double-backslash delimiter. -/
def archiveChunks (lines : List String) : List String :=
  pySplit (joinBackslashLines lines) "\\\\"

/-- One iteration of the loop of parse_geom_from_log (lines 155 to 171).
The entry is split on commas; a missing field raises IndexError, which the
source catches, skipping the record (ok none); a float failure raises
ValueError, which the source does not catch (error).  Python evaluates the
fields in order name, x, y, z, so a float failure in an earlier field aborts
before a later missing field could be noticed. -/
def logEntry (entry : String) : Except PyErr (Option Atom) :=
  match pySplit entry "," with
  | [] => .ok none
  | name2 :: rest =>
    match rest with
    | [] => .ok none
    | sx :: rest2 =>
      match pyFloat sx with
      | none => .error .valueError
      | some x =>
        match rest2 with
        | [] => .ok none
        | sy :: rest3 =>
          match pyFloat sy with
          | none => .error .valueError
          | some y =>
            match rest3 with
            | [] => .ok none
            | sz :: _ =>
              match pyFloat sz with
              | none => .error .valueError
              | some z => .ok (some ⟨name2, x, y, z⟩)

/-- The record loop of parse_geom_from_log: skipped records contribute
nothing, an uncaught error aborts the whole loop. -/
def logLoop : List String → Except PyErr (List Atom)
  | [] => .ok []
  | e :: rest =>
    match logEntry e with
    | .error err => .error err
    | .ok none => logLoop rest
    | .ok (some a) =>
      match logLoop rest with
      | .error err => .error err
      | .ok as => .ok (a :: as)

/-- parse_geom_from_log (src/parsing.py lines 123 to 173): select archive
chunk index 3 (IndexError when fewer than 4 chunks exist), split it on single
backslashes, drop the leading charge and multiplicity element, and run the
record loop. -/
def parse_geom_from_log (lines : List String) : Except PyErr (List Atom) :=
  match (archiveChunks lines).drop 3 with
  | [] => .error .indexError
  | c3 :: _ => logLoop ((pySplit c3 "\\").tail)

/-- The three leaf parsers the dispatcher can select. -/
inductive FileParser
  | log
  | xyz
  | com
deriving DecidableEq, Repr

/-- Python exceptions the dispatcher can raise: ValueError from str.index
when the path has no dot, KeyError from the dict lookup when the key is not
log, xyz or com (the spec calls the latter UnsupportedFormatError). -/
inductive DispatchErr
  | valueError
  | keyError
deriving DecidableEq, Repr

/-- Index of the first dot, as computed by Python str.index, which raises
ValueError (none) when no dot occurs. -/
def firstDotIdx : List Char → Option Nat
  | [] => none
  | c :: rest =>
    if c = '.' then some 0 else (firstDotIdx rest).map (fun n => n + 1)

/-- The parser selection of make_molecule_from_file (src/main.py lines 14 to
21): the dictionary is keyed by the substring after the first dot of the
path. -/
def formatDispatch (file : String) : Except DispatchErr FileParser :=
  match firstDotIdx file.data with
  | none => .error .valueError
  | some i =>
    if (⟨file.data.drop (i + 1)⟩ : String) = "log" then .ok .log
    else if (⟨file.data.drop (i + 1)⟩ : String) = "xyz" then .ok .xyz
    else if (⟨file.data.drop (i + 1)⟩ : String) = "com" then .ok .com
    else .error .keyError

/-- A correctly laid-out fixed-column line: two columns of symbol, fifteen of
x, a gap, fourteen of y, a gap, fourteen of z. -/
def fixedLine (sym sx sy sz : String) : String :=
  pyLjust sym 2 ++ pyRjust sx 15 ++ " " ++ pyRjust sy 14 ++ " " ++ pyRjust sz 14

/-- The line layout claimed in the round-trip property, which puts a pad
between the symbol columns and the x columns as well. -/
def claimLine (sym pad sx sy sz : String) : String :=
  pyLjust sym 2 ++ pad ++ pyRjust sx 15 ++ pad ++ pyRjust sy 14 ++ pad ++ pyRjust sz 14

/-- The corrected line layout: a single pad character sits only in the gap
columns 17 and 32 that the reader skips, and none between the symbol columns
and the x columns. -/
def amendedLine (sym : String) (p : Char) (sx sy sz : String) : String :=
  ⟨(pyLjust sym 2).data ++ ((pyRjust sx 15).data ++
      (p :: ((pyRjust sy 14).data ++ (p :: (pyRjust sz 14).data))))⟩

/-- Concrete .log input: a non-archive line and an archive of exactly five
double-backslash-separated segments whose segment 3 holds the charge and
multiplicity followed by two atom records, wrapped across two lines and
containing a space that the concatenation removes. -/
def logInputC2 : List String :=
  ["Normal output with no marker\n",
   "S0\\\\S1\\\\S2\\\\0,1\\C,0.\n",
   "0,0.0,0.0\\H, 1.0,0.0,0.0\\\\S4\n"]

/-- Concrete .log input whose geometry chunk holds one good record and one
record whose x field is not a number. -/
def logInputC4 : List String :=
  ["Q\\\\R\\\\S\\\\0,1\\H,1.0,2.0,3.0\\C,bad,0,0\\\\T\n"]

/-- Concrete .com input with one well-aligned atom line and one line whose
match has a malformed numeric run. -/
def comInputC1 : List String :=
  [fixedLine "C" "1.0" "2.0" "3.0" ++ "\n", "He 1.2.3\n"]

/-- Concrete .com input from the spec: a route-section line followed by an
atom line whose numbers are separated by three spaces. -/
def comInputC7 : List String :=
  ["# opt freq b3lyp/6-31g\n", "C    0.000000   0.000000   0.000000\n"]

/-- A 46-character line whose slices all parse. -/
def line46 : String :=
  pyLjust "C" 2 ++ pyRjust "1.0" 15 ++ " " ++ pyRjust "2.0" 14 ++ " " ++ pyRjust "3.0" 13

/-! Helper lemmas about the loops and the string helpers. -/

theorem parseLines_not_ok {l : List String} {x : String} {e : PyErr}
    (hmem : x ∈ l) (hx : sliceAtom x = .error e) :
    ∀ res, parseLines l ≠ .ok res := by
  induction l with
  | nil => exact absurd hmem (List.not_mem_nil x)
  | cons hd tl ih =>
    intro res
    cases h1 : sliceAtom hd with
    | error e1 => simp [parseLines, h1]
    | ok a =>
      cases h2 : parseLines tl with
      | error e2 => simp [parseLines, h1, h2]
      | ok as =>
        rcases List.mem_cons.mp hmem with heq | htl
        · subst heq
          rw [hx] at h1
          exact Except.noConfusion h1
        · exact (ih htl as h2).elim

theorem logLoop_not_ok {l : List String} {x : String} {e : PyErr}
    (hmem : x ∈ l) (hx : logEntry x = .error e) :
    ∀ res, logLoop l ≠ .ok res := by
  induction l with
  | nil => exact absurd hmem (List.not_mem_nil x)
  | cons hd tl ih =>
    intro res
    cases h1 : logEntry hd with
    | error e1 => simp [logLoop, h1]
    | ok oa =>
      cases oa with
      | none =>
        rcases List.mem_cons.mp hmem with heq | htl
        · subst heq
          rw [hx] at h1
          exact Except.noConfusion h1
        · simp only [logLoop, h1]
          exact ih htl res
      | some a =>
        cases h2 : logLoop tl with
        | error e2 => simp [logLoop, h1, h2]
        | ok as =>
          rcases List.mem_cons.mp hmem with heq | htl
          · subst heq
            rw [hx] at h1
            exact Except.noConfusion h1
          · exact (ih htl as h2).elim

theorem logEntry_ne_index (s : String) : logEntry s ≠ .error PyErr.indexError := by
  unfold logEntry
  repeat' split
  all_goals simp

theorem logLoop_ne_index (l : List String) : logLoop l ≠ .error PyErr.indexError := by
  induction l with
  | nil => simp [logLoop]
  | cons hd tl ih =>
    cases h1 : logEntry hd with
    | error e1 =>
      simp only [logLoop, h1]
      intro h
      injection h with h'
      exact logEntry_ne_index hd (h' ▸ h1)
    | ok oa =>
      cases oa with
      | none =>
        simp only [logLoop, h1]
        exact ih
      | some a =>
        cases h2 : logLoop tl with
        | error e2 =>
          simp only [logLoop, h1, h2]
          intro h
          injection h with h'
          exact ih (h' ▸ h2)
        | ok as =>
          simp only [logLoop, h1, h2]
          exact fun h => Except.noConfusion h

theorem dropWhile_ws_replicate (k : ℕ) (l : List Char) :
    (List.replicate k ' ' ++ l).dropWhile isWsChar = l.dropWhile isWsChar := by
  induction k with
  | zero => simp
  | succ n ih =>
    rw [List.replicate_succ, List.cons_append, List.dropWhile_cons]
    simp only [isWsChar]
    simpa using ih

theorem stripList_replicate_append (k : ℕ) (l : List Char) :
    stripList (List.replicate k ' ' ++ l) = stripList l := by
  unfold stripList
  rw [dropWhile_ws_replicate]

theorem stripList_append_replicate (l : List Char) (k : ℕ) :
    stripList (l ++ List.replicate k ' ') = stripList l := by
  have hrep : (List.replicate k ' ').dropWhile isWsChar = [] := by
    simpa using dropWhile_ws_replicate k []
  unfold stripList
  rw [List.dropWhile_append]
  by_cases h : (l.dropWhile isWsChar).isEmpty
  · rw [if_pos h, hrep]
    rw [List.isEmpty_iff.mp h]
  · rw [if_neg h, List.reverse_append, List.reverse_replicate, dropWhile_ws_replicate]

theorem pyFloat_rjust (s : String) (n : ℕ) : pyFloat (pyRjust s n) = pyFloat s := by
  show (match stripList (List.replicate (n - s.data.length) ' ' ++ s.data) with
    | '+' :: r => parseDecCore r
    | '-' :: r => (parseDecCore r).map (fun q => -q)
    | l => parseDecCore l) = pyFloat s
  rw [stripList_replicate_append]
  rfl

theorem pyStrip_ljust (s : String) (n : ℕ) : pyStrip (pyLjust s n) = pyStrip s := by
  show (⟨stripList (s.data ++ List.replicate (n - s.data.length) ' ')⟩ : String) = pyStrip s
  rw [stripList_append_replicate]
  rfl

theorem firstDotIdx_of_not_mem {l : List Char} (h : '.' ∉ l) : firstDotIdx l = none := by
  induction l with
  | nil => rfl
  | cons c rest ih =>
    have hc : ¬ c = '.' := by
      intro he
      subst he
      exact h (List.mem_cons_self _ _)
    rw [firstDotIdx, if_neg hc, ih (fun hm => h (List.mem_cons_of_mem c hm))]
    rfl

theorem firstDotIdx_append {pre : List Char} (post : List Char) (h : '.' ∉ pre) :
    firstDotIdx (pre ++ '.' :: post) = some pre.length := by
  induction pre with
  | nil => simp [firstDotIdx]
  | cons c rest ih =>
    have hc : ¬ c = '.' := by
      intro he
      subst he
      exact h (List.mem_cons_self _ _)
    rw [List.cons_append, firstDotIdx, if_neg hc,
      ih (fun hm => h (List.mem_cons_of_mem c hm))]
    rfl

/-! Claims about the .log parser. -/

/-- C2: the .log parser keeps the backslash lines, concatenates them with
newlines and spaces removed, splits on the double backslash, takes chunk 3,
drops the leading charge and multiplicity element and parses the remaining
comma-separated records; on an archive of exactly 5 double-backslash
segments whose segment 3 is 0,1 then C,0.0,0.0,0.0 then H,1.0,0.0,0.0 the
result is the atoms C at the origin and H at (1,0,0), in that order.  The
pipeline is the definition of parse_geom_from_log itself; this theorem
settles it on the concrete archive, which is wrapped across two input lines
and perturbed with a space to exercise the concatenation step. -/
theorem log_chunk_selection :
    (archiveChunks logInputC2).length = 5 ∧
      parse_geom_from_log logInputC2 = .ok [⟨"C", 0, 0, 0⟩, ⟨"H", 1, 0, 0⟩] :=
  of_decide_eq_true (by with_unfolding_all rfl)

/-- C8: with fewer than 4 double-backslash chunks the .log parse fails with
the chunk-access IndexError (the spec's UnrecognizedArchiveFormatError) and
returns no atoms; with 4 or more chunks that failure cannot occur. -/
theorem log_short_archive_rejected :
    (∀ lines : List String, (archiveChunks lines).length < 4 →
        parse_geom_from_log lines = .error PyErr.indexError)
  ∧ (∀ lines : List String, 4 ≤ (archiveChunks lines).length →
        parse_geom_from_log lines ≠ .error PyErr.indexError) := by
  constructor
  · intro lines h
    unfold parse_geom_from_log
    rw [List.drop_eq_nil_of_le (by omega)]
  · intro lines h hcontra
    unfold parse_geom_from_log at hcontra
    cases hd : (archiveChunks lines).drop 3 with
    | nil =>
      have hlen := List.drop_eq_nil_iff.mp hd
      omega
    | cons c3 cs =>
      rw [hd] at hcontra
      exact logLoop_ne_index _ hcontra

/-- Witness for C8: a file whose only backslash line holds a single
backslash yields one chunk, so the parse raises IndexError. -/
theorem log_short_archive_rejected_witness :
    parse_geom_from_log ["word\\word\n"] = .error PyErr.indexError :=
  log_short_archive_rejected.1 ["word\\word\n"] (by decide)

/-- C10: when the archive has a chunk index 3 but that chunk contains no
single-backslash separator, the record list after dropping the leading
charge and multiplicity element is empty and the parse succeeds with an
empty atom list, raising nothing. -/
theorem log_empty_geometry_ok :
    ∀ (lines : List String) (c3 q : String) (cs : List String),
      (archiveChunks lines).drop 3 = c3 :: cs →
      pySplit c3 "\\" = [q] →
      parse_geom_from_log lines = .ok [] := by
  intro lines c3 q cs hdrop hsplit
  unfold parse_geom_from_log
  rw [hdrop]
  show logLoop ((pySplit c3 "\\").tail) = .ok []
  rw [hsplit]
  rfl

/-- Witness for C10: an archive of five chunks whose geometry chunk is just
the charge and multiplicity pair parses to the empty atom list. -/
theorem log_empty_geometry_ok_witness :
    parse_geom_from_log ["A\\\\B\\\\C\\\\0,1\\\\D\n"] = .ok [] :=
  log_empty_geometry_ok ["A\\\\B\\\\C\\\\0,1\\\\D\n"] "0,1" "0,1" ["D"]
    (by decide) (by decide)

/-- C4 counterexample: the claim says a record whose x field fails to parse
as a float is skipped non-fatally, but on this archive the record C,bad,0,0
raises an uncaught ValueError and the well-formed H record is not
returned. -/
theorem log_float_error_aborts_cex :
    parse_geom_from_log logInputC4 = .error PyErr.valueError ∧
      parse_geom_from_log logInputC4 ≠ .ok [⟨"H", 1, 2, 3⟩] :=
  of_decide_eq_true (by with_unfolding_all rfl)

/-- C4 as amended: in .log per-record parsing only the missing-field
IndexError is caught.  A record with fewer than 4 comma-separated fields —
one, two or three fields, which is exhaustive since the split is never
empty — whose present coordinate fields all parse as floats is skipped
non-fatally (in particular the common trailing empty record); but a record
whose x, y or z field is present and fails float parsing raises an uncaught
ValueError, and any such record anywhere in the geometry chunk aborts the
whole parse. -/
theorem log_record_error_handling :
    (∀ entry name2 : String, pySplit entry "," = [name2] → logEntry entry = .ok none)
  ∧ (∀ (entry name2 sx : String) (x : ℚ), pySplit entry "," = [name2, sx] →
        pyFloat sx = some x → logEntry entry = .ok none)
  ∧ (∀ (entry name2 sx sy : String) (x y : ℚ), pySplit entry "," = [name2, sx, sy] →
        pyFloat sx = some x → pyFloat sy = some y → logEntry entry = .ok none)
  ∧ (∀ (entry name2 sx : String) (rest : List String),
        pySplit entry "," = name2 :: sx :: rest →
        (pyFloat sx = none ∨
          (∃ sy rest3, rest = sy :: rest3 ∧ pyFloat sy = none) ∨
          (∃ sy sz rest4, rest = sy :: sz :: rest4 ∧ pyFloat sz = none)) →
        logEntry entry = .error PyErr.valueError)
  ∧ (∀ (lines : List String) (c3 : String) (cs : List String) (entry : String) (e : PyErr),
        (archiveChunks lines).drop 3 = c3 :: cs →
        entry ∈ (pySplit c3 "\\").tail →
        logEntry entry = .error e →
        ∀ res, parse_geom_from_log lines ≠ .ok res) := by
  refine ⟨?_, ?_, ?_, ?_, ?_⟩
  · intro entry n h
    simp only [logEntry, h]
  · intro entry n sx x h hx
    simp only [logEntry, h, hx]
  · intro entry n sx sy x y h hx hy
    simp only [logEntry, h, hx, hy]
  · intro entry n sx rest h hbad
    cases hx : pyFloat sx with
    | none => simp only [logEntry, h, hx]
    | some x =>
      rcases hbad with h1 | ⟨sy, rest3, hrest, hy⟩ | ⟨sy, sz, rest4, hrest, hz⟩
      · rw [hx] at h1
        exact Option.noConfusion h1
      · subst hrest
        simp only [logEntry, h, hx, hy]
      · subst hrest
        cases hy2 : pyFloat sy with
        | none => simp only [logEntry, h, hx, hy2]
        | some y => simp only [logEntry, h, hx, hy2, hz]
  · intro lines c3 cs entry e hdrop hmem hentry res
    unfold parse_geom_from_log
    rw [hdrop]
    exact logLoop_not_ok hmem hentry res

/-- Witness for C4: the two-field record C,bad has a present x field that
fails float parsing, so it raises ValueError. -/
theorem log_record_error_handling_witness :
    logEntry "C,bad" = .error PyErr.valueError :=
  log_record_error_handling.2.2.2.1 "C,bad" "C" "bad" [] (by decide)
    (Or.inl (by decide))

/-! Claims about the .com parser. -/

/-- C1 counterexample: the claim says a candidate match with unparseable
slices is skipped and the remaining matches are still returned, but on this
input the well-aligned C line is followed by a match whose x slice is the
invalid run 1.2.3, and the parse aborts with ValueError instead of
returning the C atom. -/
theorem com_no_skip_cex :
    parse_geom_from_com comInputC1 = .error PyErr.valueError ∧
      parse_geom_from_com comInputC1 ≠ .ok [⟨"C", 1, 2, 3⟩] :=
  of_decide_eq_true (by with_unfolding_all rfl)

/-- C1 as amended: in .com parsing a candidate match whose fixed-offset
slices are too short or do not parse as floats raises an uncaught
ValueError that aborts the whole parse; no match is skipped and no atoms
are returned. -/
theorem com_bad_match_aborts :
    ∀ (lines : List String) (m : String) (e : PyErr),
      m ∈ comMatches lines → sliceAtom m = .error e →
      ∀ res, parse_geom_from_com lines ≠ .ok res := by
  intro lines m e hmem hm res
  exact parseLines_not_ok hmem hm res

/-- Witness for C1: the single candidate match of this input fails float
parsing, so the parse returns no atom list. -/
theorem com_bad_match_aborts_witness :
    parse_geom_from_com ["He 1.2.3\n"] ≠ .ok [] :=
  com_bad_match_aborts ["He 1.2.3\n"] "He 1.2.3" PyErr.valueError
    (by decide) (by decide) []

/-- C7 counterexample: the claim says this body yields exactly the atom C at
the origin, but the atom line uses four spaces after the symbol, so its
fixed-offset x slice spans into the second number and the parse aborts with
ValueError instead of succeeding. -/
theorem com_route_line_cex :
    parse_geom_from_com comInputC7 ≠ .ok [⟨"C", 0, 0, 0⟩] ∧
      parse_geom_from_com comInputC7 = .error PyErr.valueError :=
  of_decide_eq_true (by with_unfolding_all rfl)

/-- C7 as amended: the route-section line contributes no candidate match —
the only match is the atom line — but that match is not laid out on the
fixed columns, its x slice fails float parsing, and the parse aborts. -/
theorem com_route_line_behaviour :
    comMatches comInputC7 = ["C    0.000000   0.000000   0.000000"] ∧
      parse_geom_from_com comInputC7 = .error PyErr.valueError :=
  of_decide_eq_true (by with_unfolding_all rfl)

/-! Claims about the .xyz parser. -/

/-- C5 counterexample: the claim says the fixed-column reader is applied
only to non-empty data lines, but the source iterates over every line after
the first two, so a trailing blank line is fed to the reader, its slices
are empty, and the parse aborts instead of returning the well-formed C
atom. -/
theorem xyz_blank_line_aborts_cex :
    parse_geom_from_xyz
        ["3\n", "comment\n", fixedLine "C" "1.0" "2.0" "3.0" ++ "\n", "\n"] =
      .error PyErr.valueError ∧
      parse_geom_from_xyz
          ["3\n", "comment\n", fixedLine "C" "1.0" "2.0" "3.0" ++ "\n", "\n"] ≠
        .ok [⟨"C", 1, 2, 3⟩] :=
  of_decide_eq_true (by with_unfolding_all rfl)

/-- C5 as amended: the .xyz parser skips the first two lines unconditionally
(the declared atom count is never validated) and applies the fixed-column
reader to every remaining line, blank or not, in file order — a file with
header, comment and 3 well-formed atom lines yields exactly those 3 atoms —
and any remaining line the reader rejects (including a blank line) aborts
the whole parse with no recovery. -/
theorem xyz_parse_behaviour :
    (parse_geom_from_xyz
        ["3\n", "comment\n",
          fixedLine "C" "1.0" "2.0" "3.0" ++ "\n",
          fixedLine "N" "-1.5" "0.25" "3.5" ++ "\n",
          fixedLine "O" "0.0" "1.0" "2.0" ++ "\n"] =
      .ok [⟨"C", 1, 2, 3⟩, ⟨"N", -(3 / 2), 1 / 4, 7 / 2⟩, ⟨"O", 0, 1, 2⟩])
  ∧ (∀ (lines : List String) (line : String) (e : PyErr),
        line ∈ lines.drop 2 → sliceAtom line = .error e →
        ∀ res, parse_geom_from_xyz lines ≠ .ok res) := by
  constructor
  · exact of_decide_eq_true (by with_unfolding_all rfl)
  · intro lines line e hmem hline res
    exact parseLines_not_ok hmem hline res

/-- Witness for C5: a third line that is not a fixed-column atom line makes
the parse fail. -/
theorem xyz_parse_behaviour_witness :
    parse_geom_from_xyz ["1\n", "c\n", "QQ\n"] ≠ .ok [] :=
  xyz_parse_behaviour.2 ["1\n", "c\n", "QQ\n"] "QQ\n" PyErr.valueError
    (by decide) (by decide) []

/-! Claims about the fixed-column reader. -/

/-- C6 counterexample: the claim says every line shorter than 47 characters
is rejected, but this 46-character line parses successfully, because the
final slice is clamped to the line length and still holds a valid float. -/
theorem fixed_column_short_line_cex :
    line46.data.length = 46 ∧ sliceAtom line46 = .ok ⟨"C", 1, 2, 3⟩ :=
  of_decide_eq_true (by with_unfolding_all rfl)

/-- C6 as amended: the fixed-column reader fails exactly when one of the
clamped slices at offsets [2,17), [18,32), [33,47) does not parse as a
float; there is no minimum-length check, but every line of length at most
33 is rejected since its z slice is empty. -/
theorem fixed_column_failure_characterisation :
    (∀ line : String,
        sliceAtom line = .error PyErr.valueError ↔
          pyFloat (pySlice line 2 17) = none ∨ pyFloat (pySlice line 18 32) = none ∨
            pyFloat (pySlice line 33 47) = none)
  ∧ (∀ line : String, line.data.length ≤ 33 →
        sliceAtom line = .error PyErr.valueError) := by
  have hch : ∀ line : String,
      sliceAtom line = .error PyErr.valueError ↔
        pyFloat (pySlice line 2 17) = none ∨ pyFloat (pySlice line 18 32) = none ∨
          pyFloat (pySlice line 33 47) = none := by
    intro line
    unfold sliceAtom
    cases h1 : pyFloat (pySlice line 2 17) <;>
      cases h2 : pyFloat (pySlice line 18 32) <;>
        cases h3 : pyFloat (pySlice line 33 47) <;> simp
  refine ⟨hch, ?_⟩
  intro line hlen
  refine (hch line).mpr (Or.inr (Or.inr ?_))
  have hempty : pySlice line 33 47 = "" := by
    unfold pySlice
    rw [List.drop_eq_nil_of_le (by omega)]
    rfl
  rw [hempty]
  rfl

/-- Witness for C6: a three-character line is rejected. -/
theorem fixed_column_failure_characterisation_witness :
    sliceAtom "abc" = .error PyErr.valueError :=
  fixed_column_failure_characterisation.2 "abc" (by decide)

/-! Claims about the dispatcher. -/

/-- C9 counterexample: the claim says any path ending in a supported
extension dispatches to the matching parser, but a.b.log fails with
KeyError, because the lookup key is the substring after the first dot,
which is b.log. -/
theorem dispatch_first_dot_cex :
    formatDispatch "a.b.log" = .error DispatchErr.keyError ∧
      formatDispatch "a.b.log" ≠ .ok FileParser.log := by
  decide

/-- C9 as amended: the dispatcher keys on the substring after the first dot
of the path: a path without a dot fails with ValueError, and a path with a
dot dispatches to the log, xyz or com parser exactly when everything after
the first dot is that extension, failing with KeyError (the spec's
UnsupportedFormatError) otherwise — including paths that end in a supported
extension but contain an earlier dot. -/
theorem dispatch_first_dot :
    (∀ s : String, '.' ∉ s.data → formatDispatch s = .error DispatchErr.valueError)
  ∧ (∀ pre post : String, '.' ∉ pre.data →
        formatDispatch ⟨pre.data ++ '.' :: post.data⟩ =
          if post = "log" then .ok FileParser.log
          else if post = "xyz" then .ok FileParser.xyz
          else if post = "com" then .ok FileParser.com
          else .error DispatchErr.keyError) := by
  constructor
  · intro s h
    unfold formatDispatch
    rw [firstDotIdx_of_not_mem h]
  · intro pre post h
    have hidx : firstDotIdx (⟨pre.data ++ '.' :: post.data⟩ : String).data =
        some pre.data.length := firstDotIdx_append post.data h
    have hdrop : (pre.data ++ '.' :: post.data).drop (pre.data.length + 1) = post.data := by
      have hsplit : pre.data ++ '.' :: post.data = (pre.data ++ ['.']) ++ post.data := by
        simp
      rw [hsplit]
      exact List.drop_left' (by simp)
    unfold formatDispatch
    rw [hidx]
    show (if (⟨(pre.data ++ '.' :: post.data).drop (pre.data.length + 1)⟩ : String) = "log"
        then (.ok .log : Except DispatchErr FileParser)
        else if (⟨(pre.data ++ '.' :: post.data).drop (pre.data.length + 1)⟩ : String) = "xyz"
        then .ok .xyz
        else if (⟨(pre.data ++ '.' :: post.data).drop (pre.data.length + 1)⟩ : String) = "com"
        then .ok .com
        else .error .keyError) =
      if post = "log" then .ok FileParser.log
      else if post = "xyz" then .ok FileParser.xyz
      else if post = "com" then .ok FileParser.com
      else .error DispatchErr.keyError
    rw [hdrop]

/-- Witness for C9: a path whose only dot starts the log extension
dispatches to the log parser. -/
theorem dispatch_first_dot_witness :
    formatDispatch "mol.log" = .ok FileParser.log := by
  have h := dispatch_first_dot.2 "mol" "log" (by decide)
  exact h.trans (by decide)

/-! The fixed-column round trip. -/

theorem fixed_slices {A B C D : List Char} (p q : Char)
    (hA : A.length = 2) (hB : B.length = 15) (hC : C.length = 14) (hD : D.length = 14) :
    (A ++ (B ++ (p :: (C ++ (q :: D))))).take 2 = A ∧
      ((A ++ (B ++ (p :: (C ++ (q :: D))))).drop 2).take 15 = B ∧
      ((A ++ (B ++ (p :: (C ++ (q :: D))))).drop 18).take 14 = C ∧
      ((A ++ (B ++ (p :: (C ++ (q :: D))))).drop 33).take 14 = D := by
  have h2 : (A ++ (B ++ (p :: (C ++ (q :: D))))).drop 2 = B ++ (p :: (C ++ (q :: D))) :=
    List.drop_left' hA
  have h18 : (A ++ (B ++ (p :: (C ++ (q :: D))))).drop 18 = C ++ (q :: D) := by
    rw [show (18 : ℕ) = 2 + 16 from rfl, ← List.drop_drop, h2,
      List.drop_append_eq_append_drop,
      List.drop_eq_nil_of_le (show B.length ≤ 16 by omega), hB]
    simp
  have h33 : (A ++ (B ++ (p :: (C ++ (q :: D))))).drop 33 = D := by
    rw [show (33 : ℕ) = 18 + 15 from rfl, ← List.drop_drop, h18,
      List.drop_append_eq_append_drop,
      List.drop_eq_nil_of_le (show C.length ≤ 15 by omega), hC]
    simp
  refine ⟨List.take_left' hA, ?_, ?_, ?_⟩
  · rw [h2]
    exact List.take_left' hB
  · rw [h18]
    exact List.take_left' hC
  · rw [h33]
    calc D.take 14 = D.take D.length := by rw [hD]
    _ = D := List.take_length D

/-- C3 counterexample: the claim places a pad between the symbol and
x.rjust(15), which shifts every numeric field one column to the right of
the offsets the reader uses; with pad a single space and x = 1.5 the reader
silently returns x = 1.0, not a value numerically equal to 1.5. -/
theorem fixed_column_pad_cex :
    sliceAtom (claimLine "C" " " "1.5" "2.0" "3.0") = .ok ⟨"C", 1, 2, 3⟩ ∧
      sliceAtom (claimLine "C" " " "1.5" "2.0" "3.0") ≠ .ok ⟨"C", 3 / 2, 2, 3⟩ :=
  of_decide_eq_true (by with_unfolding_all rfl)

/-- C3 as amended: for every symbol of at most 2 characters, every
single-character pad, and all float-literal strings x of at most 15 and y, z
of at most 14 characters, the reader applied to the line symbol.ljust(2) ++
x.rjust(15) ++ pad ++ y.rjust(14) ++ pad ++ z.rjust(14) — with no pad
between the symbol field and x — recovers exactly the whitespace-trimmed
symbol and coordinates numerically equal to x, y and z. -/
theorem fixed_column_round_trip
    (sym : String) (p : Char) (sx sy sz : String) (qx qy qz : ℚ)
    (hsym : sym.data.length ≤ 2)
    (hx : sx.data.length ≤ 15) (hy : sy.data.length ≤ 14) (hz : sz.data.length ≤ 14)
    (hqx : pyFloat sx = some qx) (hqy : pyFloat sy = some qy) (hqz : pyFloat sz = some qz) :
    sliceAtom (amendedLine sym p sx sy sz) = .ok ⟨pyStrip sym, qx, qy, qz⟩ := by
  have hA : (pyLjust sym 2).data.length = 2 := by
    show (sym.data ++ List.replicate (2 - sym.data.length) ' ').length = 2
    rw [List.length_append, List.length_replicate]
    omega
  have hB : (pyRjust sx 15).data.length = 15 := by
    show (List.replicate (15 - sx.data.length) ' ' ++ sx.data).length = 15
    rw [List.length_append, List.length_replicate]
    omega
  have hC : (pyRjust sy 14).data.length = 14 := by
    show (List.replicate (14 - sy.data.length) ' ' ++ sy.data).length = 14
    rw [List.length_append, List.length_replicate]
    omega
  have hD : (pyRjust sz 14).data.length = 14 := by
    show (List.replicate (14 - sz.data.length) ' ' ++ sz.data).length = 14
    rw [List.length_append, List.length_replicate]
    omega
  obtain ⟨t0, t1, t2, t3⟩ := fixed_slices p p hA hB hC hD
  have s0 : pySlice (amendedLine sym p sx sy sz) 0 2 = pyLjust sym 2 :=
    congrArg (fun l => (⟨l⟩ : String)) t0
  have s1 : pySlice (amendedLine sym p sx sy sz) 2 17 = pyRjust sx 15 :=
    congrArg (fun l => (⟨l⟩ : String)) t1
  have s2 : pySlice (amendedLine sym p sx sy sz) 18 32 = pyRjust sy 14 :=
    congrArg (fun l => (⟨l⟩ : String)) t2
  have s3 : pySlice (amendedLine sym p sx sy sz) 33 47 = pyRjust sz 14 :=
    congrArg (fun l => (⟨l⟩ : String)) t3
  unfold sliceAtom
  rw [s1, s2, s3, s0, pyFloat_rjust, pyFloat_rjust, pyFloat_rjust, hqx, hqy, hqz,
    pyStrip_ljust]

/-- Witness for C3: the corrected layout recovers 1.5 exactly. -/
theorem fixed_column_round_trip_witness :
    sliceAtom (amendedLine "C" ' ' "1.5" "2.0" "3.0") = .ok ⟨pyStrip "C", 3 / 2, 2, 3⟩ :=
  fixed_column_round_trip "C" ' ' "1.5" "2.0" "3.0" (3 / 2) 2 3 (by decide) (by decide)
    (by decide) (by decide) (of_decide_eq_true (by with_unfolding_all rfl))
    (of_decide_eq_true (by with_unfolding_all rfl))
    (of_decide_eq_true (by with_unfolding_all rfl))

end GenFig
